import Mathlib

/-
  Verification development for the Bulk-Webhook repository
  (bulkwebhook/bulk_webhook/doctype/kafka_hook/kafka_hook.py).

  The Python module is shallowly embedded: documents, webhook definitions,
  the registry cache, the event matcher (`run_webhooks`), the worker entry
  point (`run_kafka_hook` / `_run_kafka_hook`), the payload builder
  (`get_webhook_data`) and the validation hooks are translated into
  executable Lean definitions.  External collaborators (the ORM document
  store, the template engine, `json.loads`, the sandboxed evaluator, the
  Kafka client) are passed in as explicit function-valued environment
  fields, mirroring the contracts the module relies on.  Exceptions are
  modelled with `Except`; mutation of `frappe.flags` and of the process
  cache is modelled by explicit state passing.
-/

namespace BulkWebhook

/-- Exceptions are opaque to the module: only their message matters. -/
abbrev Err := String

/-- A parsed JSON value (result of `json.loads` on the rendered template). -/
inductive JValue where
  | str (s : String)
  | num (n : Int)
  | bool (b : Bool)
  | null
  | arr (xs : List JValue)
  | obj (fields : List (String × JValue))

/-- A field value stored on a document.  Dates are kept distinct so that
`as_dict(convert_dates_to_str=True)` has something to coerce. -/
inductive FieldVal where
  | s (v : String)
  | i (v : Int)
  | b (v : Bool)
  | date (y m d : Nat)
deriving DecidableEq

/-- Polymorphic association-list lookup (Python `dict.get(k)`). -/
def alist_get {α : Type} : List (String × α) → String → Option α
  | [], _ => none
  | (k, v) :: rest, key => if k = key then some v else alist_get rest key

/-- Python `dict.setdefault(k, []).append(v)` on a dict of lists.  Key
insertion order and per-key append order are both preserved, as in a
Python `dict`. -/
def setdefault_append {α : Type} : List (String × List α) → String → α → List (String × List α)
  | [], key, v => [(key, [v])]
  | (k, vs) :: rest, key, v =>
      if k = key then (k, vs ++ [v]) :: rest
      else (k, vs) :: setdefault_append rest key v

/-- Render of a date as a string (stand-in for the str() coercion applied
by `as_dict(convert_dates_to_str=True)`). -/
def fmtDate (y m d : Nat) : String :=
  toString y ++ "-" ++ toString m ++ "-" ++ toString d

/-- A document exposed by the ORM: its doctype, its identity (`name`), its
fields, and the `flags.in_insert` marker consulted by `run_webhooks`. -/
structure Doc where
  doctype : String
  name : String
  fields : List (String × FieldVal)
  flags_in_insert : Bool
deriving DecidableEq

/-- `doc.as_dict(convert_dates_to_str=True)`: the document as a
string-keyed map with date fields coerced to strings. -/
def Doc.as_dict (doc : Doc) (convert_dates_to_str : Bool) : List (String × FieldVal) :=
  doc.fields.map (fun p =>
    match p.2 with
    | FieldVal.date y m d =>
        if convert_dates_to_str then (p.1, FieldVal.s (fmtDate y m d)) else p
    | _ => p)

/-- A value bound in the rendering/evaluation context: either the shared
safe-utility namespace (`WEBHOOK_CONTEXT`'s `utils` entry) or the
serialized document map bound to `doc`. -/
inductive CtxVal where
  | utils
  | docmap (m : List (String × FieldVal))

abbrev Ctx := List (String × CtxVal)

/-- `WEBHOOK_CONTEXT = {"utils": get_safe_frappe_utils()}`. -/
def WEBHOOK_CONTEXT : Ctx := [("utils", CtxVal.utils)]

/-- `{**WEBHOOK_CONTEXT, "doc": doc}`: the template/eval context. -/
def webhook_ctx (m : List (String × FieldVal)) : Ctx :=
  WEBHOOK_CONTEXT ++ [("doc", CtxVal.docmap m)]

/-- The `data` slot of a webhook payload: either a generic parsed JSON map
(Template mode, or a Method returning plain data — no `.id` attribute, so
attribute access raises) or a structured object exposing `.id`. -/
inductive PyObj where
  | json (v : JValue)
  | structured (id : String) (payload : JValue)

/-- Opaque alternate serialized representation (`proto_obj`). -/
abbrev ProtoObj := String

/-- The dict returned by `get_webhook_data` / by a Method-mode function:
`{"data": ..., "proto_obj": ...}` accessed with `.get`, so either slot may
be absent. -/
structure WebhookData where
  data : Option PyObj
  proto_obj : Option ProtoObj

/-- Python attribute access `data.get("data").id`: raises
(`AttributeError`) unless the object is a structured object with an id. -/
def getDataId : Option PyObj → Except Err String
  | some (PyObj.structured i _) => Except.ok i
  | some (PyObj.json _) => Except.error "AttributeError"
  | none => Except.error "AttributeError"

/-- A persisted Kafka Hook definition (the fields the module touches). -/
structure KafkaHook where
  name : String
  enabled : Bool
  webhook_doctype : String
  webhook_docevent : String
  condition : String
  process_data : String
  webhook_json : String
  webhook_method : String
  kafka_settings : String
  kafka_topic : String
deriving DecidableEq

/-- The lightweight projection fetched by `generate_kafkahook`'s
`frappe.get_all` call (fields name, condition, webhook_docevent,
webhook_doctype). -/
structure HookSummary where
  name : String
  condition : String
  webhook_docevent : String
  webhook_doctype : String
deriving DecidableEq

def KafkaHook.summary (h : KafkaHook) : HookSummary :=
  ⟨h.name, h.condition, h.webhook_docevent, h.webhook_doctype⟩

/-- The arguments of one `send_kafka` invocation:
`(kafka_settings, kafka_topic, key, data, proto_obj, is_protobuf_obj)`. -/
structure SentMsg where
  settings : String
  topic : String
  key : Option String
  body : Option PyObj
  proto : Option ProtoObj
  is_structured : Option Bool

/-- One `frappe.log_error` call: either message + traceback, or the
title-only form used in `run_kafka_hook`'s loop. -/
inductive LogErr where
  | msgTrace (msg : String)
  | title (t : String)

/-- One `log_request` audit record: topic, settings reference, payload
body and broker response (absent on the failure path, where the local
`r` is still `None`). -/
structure AuditEntry where
  topic : String
  settings : String
  payload : Option PyObj
  response : Option String

/-- External collaborators of the worker path, as functions.  `getAttr`
is `frappe.get_attr(webhook_method)(doc)`; `render` is
`frappe.render_template`; `jsonParse` is `json.loads`; `sendKafka` is
`send_kafka`; `getDoc` is `frappe.get_doc(doctype, name)`.  Each may
raise (`Except.error`). -/
structure Env where
  getAttr : String → Doc → Except Err WebhookData
  render : String → Ctx → Except Err String
  jsonParse : String → Except Err JValue
  sendKafka : SentMsg → Except Err String
  getDoc : String → String → Except Err Doc

/-- `get_webhook_data(doc, kafka_hook)`: Method mode calls the named
external function on the document; otherwise the document is serialized
(dates to strings), the template body is rendered against
`{**WEBHOOK_CONTEXT, "doc": doc}`, the output is parsed as JSON, and the
result is wrapped as `{"data": data, "proto_obj": None}`. -/
def get_webhook_data (env : Env) (doc : Doc) (kafka_hook : KafkaHook) :
    Except Err WebhookData :=
  if kafka_hook.process_data = "Method" then
    env.getAttr kafka_hook.webhook_method doc
  else
    match env.render kafka_hook.webhook_json (webhook_ctx (doc.as_dict true)) with
    | Except.error e => Except.error e
    | Except.ok rendered =>
        match env.jsonParse rendered with
        | Except.error e => Except.error e
        | Except.ok v => Except.ok ⟨some (PyObj.json v), none⟩

/-- The key/flag phase of `_run_kafka_hook`: `key = None`,
`is_protobuf_obj = None`, overwritten with `data.get("data").id` / `True`
when `process_data == "Method" and webhook_method` — attribute access may
raise. -/
def hook_key (hook : KafkaHook) (data : WebhookData) :
    Except Err (Option String × Option Bool) :=
  if hook.process_data = "Method" ∧ hook.webhook_method ≠ "" then
    match getDataId data.data with
    | Except.error e => Except.error e
    | Except.ok i => Except.ok (some i, some true)
  else Except.ok (none, none)

/-- The argument tuple handed to `send_kafka`. -/
def hook_msg (hook : KafkaHook) (data : WebhookData)
    (kp : Option String × Option Bool) : SentMsg :=
  ⟨hook.kafka_settings, hook.kafka_topic, kp.1, data.data, data.proto_obj, kp.2⟩

/-- Outcome of one `_run_kafka_hook` call: error-log entries, audit
entries, the `send_kafka` invocation if one happened, and the exception
that escaped the function, if any. -/
structure RunResult where
  errorLog : List LogErr
  audit : List AuditEntry
  sent : Option SentMsg
  exn : Option Err

/-- `_run_kafka_hook(hook, doc)`.  Payload building and the key phase run
before the `try:` block, so their exceptions escape.  The `try` wraps the
`send_kafka` call and the success audit; its `except` logs the error with
traceback and writes an audit record under the `"Error: "`-prefixed topic
with the still-`None` response `r`. -/
def _run_kafka_hook (env : Env) (hook : KafkaHook) (doc : Doc) : RunResult :=
  match get_webhook_data env doc hook with
  | Except.error e => ⟨[], [], none, some e⟩
  | Except.ok data =>
    match hook_key hook data with
    | Except.error e => ⟨[], [], none, some e⟩
    | Except.ok kp =>
      let msg := hook_msg hook data kp
      match env.sendKafka msg with
      | Except.ok r =>
          ⟨[], [⟨hook.kafka_topic, hook.kafka_settings, data.data, some r⟩],
            some msg, none⟩
      | Except.error e =>
          ⟨[LogErr.msgTrace e],
            [⟨"Error: " ++ hook.kafka_topic, hook.kafka_settings, data.data, none⟩],
            some msg, none⟩

/-- Accumulated outcome of a `run_kafka_hook` call: logs, audits, sends,
the document names for which resolution was attempted, and the escaping
exception, if any. -/
structure BatchResult where
  errorLog : List LogErr
  audit : List AuditEntry
  sent : List SentMsg
  attempts : List String
  exn : Option Err

/-- The `for doc_name in doc_list:` loop of `run_kafka_hook`: each item is
re-resolved with `frappe.get_doc` and run; any exception (resolution or
`_run_kafka_hook`) re-raises when the call came from a live request and is
otherwise logged with the title `"Error running Kafka Hook"`, after which
the loop continues with the next item. -/
def run_kafka_hook_list (env : Env) (hook : KafkaHook) (is_from_request : Bool)
    (doctype : String) : List String → BatchResult
  | [] => ⟨[], [], [], [], none⟩
  | n :: rest =>
    match env.getDoc doctype n with
    | Except.error e =>
        if is_from_request then ⟨[], [], [], [n], some e⟩
        else
          let b := run_kafka_hook_list env hook is_from_request doctype rest
          ⟨LogErr.title "Error running Kafka Hook" :: b.errorLog,
            b.audit, b.sent, n :: b.attempts, b.exn⟩
    | Except.ok d =>
      let r := _run_kafka_hook env hook d
      match r.exn with
      | some e =>
          if is_from_request then
            ⟨r.errorLog, r.audit, r.sent.toList, [n], some e⟩
          else
            let b := run_kafka_hook_list env hook is_from_request doctype rest
            ⟨r.errorLog ++ LogErr.title "Error running Kafka Hook" :: b.errorLog,
              r.audit ++ b.audit, r.sent.toList ++ b.sent, n :: b.attempts, b.exn⟩
      | none =>
          let b := run_kafka_hook_list env hook is_from_request doctype rest
          ⟨r.errorLog ++ b.errorLog, r.audit ++ b.audit,
            r.sent.toList ++ b.sent, n :: b.attempts, b.exn⟩

/-- `run_kafka_hook(kafka_hook_name, doc, doctype, doc_list)`.  The hook
itself is resolved by `frappe.get_cached_doc` and passed here directly;
`is_from_request` is `bool(frappe.request)`.  When a full `doc` is given
the single run happens with no surrounding try/except; otherwise the
identity list is processed by the guarded loop (a bare-string `doc_list`
is first wrapped into a one-element list by the Python code, so the list
form is taken as input here). -/
def run_kafka_hook (env : Env) (hook : KafkaHook) (is_from_request : Bool)
    (doc : Option Doc) (doctype : String) (doc_list : List String) : BatchResult :=
  match doc with
  | some d =>
      let r := _run_kafka_hook env hook d
      ⟨r.errorLog, r.audit, r.sent.toList, [], r.exn⟩
  | none => run_kafka_hook_list env hook is_from_request doctype doc_list

/-! ## Registry cache (`generate_kafkahook`, `fetch_webhooks_from_redis`,
`KafkaHook.on_update` / `on_trash`) -/

/-- The grouping built by `generate_kafkahook`: a dict from doctype to the
list of hook summaries, in store order. -/
abbrev Registry := List (String × List HookSummary)

/-- The persisted Kafka Hook table (the Definition Store). -/
abbrev HookStore := List KafkaHook

/-- The `frappe.get_all("Kafka Hook", fields=..., filters={"enabled": True})`
query: enabled rows only, projected to the matching fields, in store
order. -/
def get_all_enabled (store : HookStore) : List HookSummary :=
  (store.filter (fun h => h.enabled)).map KafkaHook.summary

/-- The grouping loop of `generate_kafkahook`:
`webhooks.setdefault(w.webhook_doctype, []).append(w)`. -/
def group_hooks : List HookSummary → Registry → Registry
  | [], m => m
  | w :: ws, m => group_hooks ws (setdefault_append m w.webhook_doctype w)

/-- `generate_kafkahook()`: query enabled definitions and group them by
target doctype. -/
def generate_kafkahook (store : HookStore) : Registry :=
  group_hooks (get_all_enabled store) []

/-- The process-cache slot for the fixed key `"kafkahook"`. -/
structure CacheState where
  kafkahook : Option Registry

/-- Result of one `frappe.cache().get_value("kafkahook", generator=...)`
call: the new cache state, the returned registry, and how many store
queries were run (0 on a hit, 1 on a miss). -/
structure FetchOut where
  cache : CacheState
  registry : Registry
  queries : Nat

/-- `fetch_webhooks_from_redis()`: return the cached value if present,
otherwise run the generator, store its result and return it. -/
def fetch_webhooks_from_redis (c : CacheState) (store : HookStore) : FetchOut :=
  match c.kafkahook with
  | some r => ⟨c, r, 0⟩
  | none =>
      let r := generate_kafkahook store
      ⟨⟨some r⟩, r, 1⟩

/-- `KafkaHook.on_update`: `frappe.cache().delete_value("kafkahook")`.
Frappe fires `on_update` after every save, first save (creation)
included, so create and update both land here. -/
def kafka_hook_on_update (_c : CacheState) : CacheState := ⟨none⟩

/-- `KafkaHook.on_trash`: `frappe.cache().delete_value("kafkahook")`. -/
def kafka_hook_on_trash (_c : CacheState) : CacheState := ⟨none⟩

/-! ## Event matcher and dedup tracker (`run_webhooks`) -/

/-- `frappe.flags.kafkahook_executed`: dict from document name to the list
of webhook names already executed for it in this unit of work. -/
abbrev ExecMap := List (String × List String)

/-- `flags.kafkahook_executed.get(doc_name, [])`. -/
def exec_get (m : ExecMap) (doc_name : String) : List String :=
  (alist_get m doc_name).getD []

/-- `flags.kafkahook_executed.setdefault(doc_name, []).append(hook_name)`. -/
def exec_append (m : ExecMap) (doc_name hook_name : String) : ExecMap :=
  setdefault_append m doc_name hook_name

/-- The ambient `frappe.flags` state read and written by `run_webhooks`. -/
structure Flags where
  in_import : Bool
  in_patch : Bool
  in_install : Bool
  in_migrate : Bool
  kafkahook_executed : Option ExecMap
  kafkahook : Option Registry

/-- External collaborators of the event matcher: the sandboxed evaluator
(`frappe.safe_eval`, truthiness of its result; it may raise) and the
registry that `fetch_webhooks_from_redis()` returns during this unit of
work. -/
structure MatchEnv where
  safeEval : String → Doc → Except Err Bool
  fetched : Registry

/-- One task handed to `frappe.enqueue(... run_kafka_hook,
enqueue_after_commit=True, doc=doc, kafka_hook_name=webhook.name)`. -/
structure HookTask where
  kafka_hook_name : String
  doc : Doc
deriving DecidableEq

/-- Outcome of the per-document webhook loop: the updated executed-map,
the enqueued tasks in order, and the exception that escaped, if any. -/
structure LoopRes where
  exec : ExecMap
  tasks : List HookTask
  exn : Option Err

/-- The `for webhook in webhooks_for_doc:` loop of `run_webhooks`: skip on
event mismatch, skip if already executed for this document name, evaluate
the condition (empty condition is always satisfied; a raising evaluation
escapes), then enqueue and record the webhook name under the document
name. -/
def run_webhooks_loop (env : MatchEnv) (doc : Doc) (method : String) :
    List HookSummary → ExecMap → LoopRes
  | [], ex => ⟨ex, [], none⟩
  | w :: ws, ex =>
    if w.webhook_docevent ≠ method then run_webhooks_loop env doc method ws ex
    else if w.name ∈ exec_get ex doc.name then run_webhooks_loop env doc method ws ex
    else
      match (if w.condition = "" then Except.ok true else env.safeEval w.condition doc) with
      | Except.error e => ⟨ex, [], some e⟩
      | Except.ok false => run_webhooks_loop env doc method ws ex
      | Except.ok true =>
          let rest := run_webhooks_loop env doc method ws (exec_append ex doc.name w.name)
          ⟨rest.exec, ⟨w.name, doc⟩ :: rest.tasks, rest.exn⟩

/-- The applicable trigger-event set built by `run_webhooks`: the base
set, extended with the value-change events when the document is not being
inserted. -/
def event_list (doc : Doc) : List String :=
  let base := ["on_update", "after_insert", "on_submit", "on_cancel", "on_trash"]
  if doc.flags_in_insert then base else base ++ ["on_change", "before_update_after_submit"]

/-- Outcome of one `run_webhooks(doc, method)` call: the updated flags,
the enqueued tasks, and the exception that escaped, if any. -/
structure MatchResult where
  flags : Flags
  tasks : List HookTask
  exn : Option Err

/-- `run_webhooks(doc, method)`: no-op during import/patch/install/migrate
and for methods outside the applicable event set; otherwise initialize the
executed-dict and the memoized registry on the flags if absent, look up
the document's doctype (a missing or empty entry is falsy and ends the
call), and run the webhook loop. -/
def run_webhooks (env : MatchEnv) (st : Flags) (doc : Doc) (method : String) :
    MatchResult :=
  if st.in_import ∨ st.in_patch ∨ st.in_install ∨ st.in_migrate then ⟨st, [], none⟩
  else if method ∉ event_list doc then ⟨st, [], none⟩
  else
    let executed := st.kafkahook_executed.getD []
    let registry := st.kafkahook.getD env.fetched
    let st1 : Flags := { st with kafkahook_executed := some executed,
                                 kafkahook := some registry }
    match alist_get registry doc.doctype with
    | none => ⟨st1, [], none⟩
    | some ws =>
        if ws = [] then ⟨st1, [], none⟩
        else
          let r := run_webhooks_loop env doc method ws executed
          ⟨{ st1 with kafkahook_executed := some r.exec }, r.tasks, r.exn⟩

/-- A unit of work: the lifecycle events fire one after another against
the shared `frappe.flags` state; enqueued tasks accumulate. -/
def run_events (env : MatchEnv) (st : Flags) : List (Doc × String) → Flags × List HookTask
  | [] => (st, [])
  | (d, m) :: evs =>
      let r := run_webhooks env st d m
      let rest := run_events env r.flags evs
      (rest.1, r.tasks ++ rest.2)

/-- Number of enqueue calls for webhook name `w` and document identity `n`
in a task list. -/
def countTasks (w n : String) (ts : List HookTask) : Nat :=
  (ts.filter (fun t => decide (t.kafka_hook_name = w ∧ t.doc.name = n))).length

/-! ## Validation (`KafkaHook.validate` and its parts) -/

/-- External collaborators of the validation path: the
`frappe.get_value("DocType", ..., "is_submittable")` lookup, the sandboxed
evaluator, `validate_template`, and `frappe.new_doc`. -/
structure ValidateEnv where
  is_submittable : String → Bool
  safeEval : String → Doc → Except Err Bool
  validate_template : String → Except Err Unit
  new_doc : String → Doc

/-- `KafkaHook.validate_docevent`: with a target doctype set, a
non-submittable doctype combined with a doc event in
`["on_submit", "on_cancel", "on_update_after_submit"]` raises. -/
def validate_docevent (env : ValidateEnv) (h : KafkaHook) : Except Err Unit :=
  if h.webhook_doctype ≠ "" then
    if ¬ env.is_submittable h.webhook_doctype ∧
        h.webhook_docevent ∈ ["on_submit", "on_cancel", "on_update_after_submit"] then
      Except.error "DocType must be Submittable for the selected Doc Event"
    else Except.ok ()
  else Except.ok ()

/-- `KafkaHook.validate_condition`: a non-empty condition is evaluated
against a new document of the target doctype; an evaluation error is
re-thrown. -/
def validate_condition (env : ValidateEnv) (h : KafkaHook) : Except Err Unit :=
  let temp_doc := env.new_doc h.webhook_doctype
  if h.condition ≠ "" then
    match env.safeEval h.condition temp_doc with
    | Except.error e => Except.error e
    | Except.ok _ => Except.ok ()
  else Except.ok ()

/-- `KafkaHook.validate_request_body`: `validate_template(webhook_json)`. -/
def validate_request_body (env : ValidateEnv) (h : KafkaHook) : Except Err Unit :=
  env.validate_template h.webhook_json

/-- `KafkaHook.validate`: the three checks in order; the first raise
aborts the save. -/
def KafkaHook.validate (env : ValidateEnv) (h : KafkaHook) : Except Err Unit :=
  match validate_docevent env h with
  | Except.error e => Except.error e
  | Except.ok _ =>
      match validate_condition env h with
      | Except.error e => Except.error e
      | Except.ok _ => validate_request_body env h

/-- Saving a definition: validation runs first and a raise blocks
persistence; otherwise the definition is persisted to the store. -/
def save_kafka_hook (env : ValidateEnv) (store : HookStore) (h : KafkaHook) :
    Except Err HookStore :=
  match KafkaHook.validate env h with
  | Except.error e => Except.error e
  | Except.ok _ => Except.ok (store ++ [h])

/-- Modelled from the spec: the trigger-event options of
`webhook_docevent`.  The select options live in the doctype JSON, which is
not part of the sources here; spec section 3 fixes the enum as
after-create, on-update, on-value-change, on-submit, on-cancel,
before-update-after-submit, on-delete and section 4.4 ties those names to
the code strings used by the event matcher. -/
def docevent_options : List String :=
  ["after_insert", "on_update", "on_change", "on_submit", "on_cancel",
   "before_update_after_submit", "on_trash"]

/-! ## Concrete external collaborators

The template engine, `json.loads` and the sandboxed evaluator are external
services; the following small executable instances realize their
contracts on the inputs used by the spec's examples, so the theorems can
be exercised on closed inputs. -/

def lbrace : Char := Char.ofNat 123

def rbrace : Char := Char.ofNat 125

/-- Replace every occurrence of `pat` by `rep` in a character list (fuel
is the input length). -/
def replAux (pat rep : List Char) : List Char → Nat → List Char
  | cs, 0 => cs
  | [], _ + 1 => []
  | c :: cs, fuel + 1 =>
      if pat.isPrefixOf (c :: cs) ∧ pat ≠ [] then
        rep ++ replAux pat rep ((c :: cs).drop pat.length) fuel
      else c :: replAux pat rep cs fuel

/-- The moustache pattern `\x7b\x7b doc.name \x7d\x7d`. -/
def docNamePat : String :=
  String.mk [lbrace, lbrace, ' ', 'd', 'o', 'c', '.', 'n', 'a', 'm', 'e', ' ', rbrace, rbrace]

/-- A small template engine: substitutes the document's `name` field for
each `\x7b\x7b doc.name \x7d\x7d` occurrence, using the `doc` binding of
the context; raises when the binding or the field is missing. -/
def miniRender (tpl : String) (ctx : Ctx) : Except Err String :=
  match alist_get ctx "doc" with
  | some (CtxVal.docmap m) =>
      match alist_get m "name" with
      | some (FieldVal.s nm) =>
          Except.ok (String.mk (replAux docNamePat.toList nm.toList tpl.toList tpl.toList.length))
      | _ => Except.error "TemplateError"
  | _ => Except.error "TemplateError"

def skipWS : List Char → List Char
  | ' ' :: cs => skipWS cs
  | cs => cs

/-- Read characters up to the closing double quote. -/
def takeUntilQuote : List Char → Option (List Char × List Char)
  | [] => none
  | '\"' :: cs => some ([], cs)
  | c :: cs =>
      match takeUntilQuote cs with
      | none => none
      | some (a, r) => some (c :: a, r)

/-- Parse `"key": "value"` pairs separated by commas up to the closing
brace. -/
def parsePairs : Nat → List Char → Option (List (String × JValue) × List Char)
  | 0, _ => none
  | fuel + 1, cs =>
    match skipWS cs with
    | '\"' :: cs1 =>
        match takeUntilQuote cs1 with
        | none => none
        | some (k, cs2) =>
            match skipWS cs2 with
            | ':' :: cs3 =>
                match skipWS cs3 with
                | '\"' :: cs4 =>
                    match takeUntilQuote cs4 with
                    | none => none
                    | some (v, cs5) =>
                        match skipWS cs5 with
                        | ',' :: cs6 =>
                            match parsePairs fuel cs6 with
                            | none => none
                            | some (ps, rest) =>
                                some ((String.mk k, JValue.str (String.mk v)) :: ps, rest)
                        | c :: cs6 =>
                            if c = rbrace then
                              some ([(String.mk k, JValue.str (String.mk v))], cs6)
                            else none
                        | [] => none
                | _ => none
            | _ => none
    | _ => none

/-- A small `json.loads`: flat objects with string values. -/
def miniParse (s : String) : Except Err JValue :=
  match s.toList with
  | c :: cs =>
      if c = lbrace then
        match parsePairs (cs.length + 1) cs with
        | some (ps, rest) =>
            if skipWS rest = [] then Except.ok (JValue.obj ps) else Except.error "JSONDecodeError"
        | none => Except.error "JSONDecodeError"
      else Except.error "JSONDecodeError"
  | [] => Except.error "JSONDecodeError"

/-- A small sandboxed evaluator: handles exactly the expression
`doc.status == "Approved"` by comparing the document's `status` field,
and raises on anything else. -/
def miniEval (expr : String) (doc : Doc) : Except Err Bool :=
  if expr = "doc.status == \"Approved\"" then
    Except.ok (alist_get doc.fields "status" == some (FieldVal.s "Approved"))
  else Except.error "NameError"

/-! ## Concrete instances used to exercise the theorems -/

/-- A sample document. -/
def docD1 : Doc :=
  ⟨"Note", "DOC-0001", [("name", FieldVal.s "DOC-0001"), ("status", FieldVal.s "Approved")], false⟩

/-- The spec's example template body `\x7b"id": "\x7b\x7b doc.name \x7d\x7d"\x7d`. -/
def tplID : String :=
  String.mk ([lbrace] ++ "\"id\": \"".toList ++ docNamePat.toList ++ "\"".toList ++ [rbrace])

/-- The render of `tplID` against `docD1`. -/
def renderedID : String :=
  String.mk ([lbrace] ++ "\"id\": \"DOC-0001\"".toList ++ [rbrace])

/-- The parsed example payload `\x7b"id": "DOC-0001"\x7d`. -/
def jsonID : JValue := JValue.obj [("id", JValue.str "DOC-0001")]

/-- A Template-mode definition. -/
def hookT : KafkaHook :=
  ⟨"KH-T", true, "Note", "on_update", "", "Template", tplID, "", "KS-1", "invoices"⟩

/-- A Method-mode definition. -/
def hookM : KafkaHook :=
  ⟨"KH-M", true, "Note", "on_update", "", "Method", "", "myapp.make_payload", "KS-1", "invoices"⟩

/-- The structure returned by the Method-mode external function:
`data.id = "XYZ"`, plus an alternate serialized representation. -/
def methodResult : WebhookData :=
  ⟨some (PyObj.structured "XYZ" (JValue.obj [])), some "protobytes"⟩

/-- Collaborators that all succeed: the Method function returns
`methodResult`, templates render with `miniRender`, JSON parses with
`miniParse`, the broker acknowledges with `"ack"`, and `docD1` resolves. -/
def envOk : Env :=
  ⟨fun m _ => if m = "myapp.make_payload" then Except.ok methodResult
              else Except.error "AttributeError",
   miniRender, miniParse,
   fun _ => Except.ok "ack",
   fun dt n => if dt = "Note" ∧ n = "DOC-0001" then Except.ok docD1
               else Except.error "DoesNotExistError"⟩

/-- Collaborators whose template engine raises. -/
def envRenderFail : Env :=
  ⟨fun _ _ => Except.error "AttributeError",
   fun _ _ => Except.error "TemplateSyntaxError",
   miniParse,
   fun _ => Except.ok "ack",
   fun dt n => if dt = "Note" ∧ n = "DOC-0001" then Except.ok docD1
               else Except.error "DoesNotExistError"⟩

/-- Collaborators whose broker send raises. -/
def envSendFail : Env :=
  ⟨fun m _ => if m = "myapp.make_payload" then Except.ok methodResult
              else Except.error "AttributeError",
   miniRender, miniParse,
   fun _ => Except.error "KafkaTimeoutError",
   fun dt n => if dt = "Note" ∧ n = "DOC-0001" then Except.ok docD1
               else Except.error "DoesNotExistError"⟩

/-- A batch item that fully succeeds: its document resolves and its run
raises nothing. -/
def okItem (env : Env) (hook : KafkaHook) (doctype m : String) : Prop :=
  ∃ d, env.getDoc doctype m = Except.ok d ∧ (_run_kafka_hook env hook d).exn = none

/-- `None`-or-append combination of a dict entry with newly grouped
members. -/
def combineEntry (o : Option (List HookSummary)) (l : List HookSummary) :
    Option (List HookSummary) :=
  match o, l with
  | none, [] => none
  | none, l => some l
  | some v, l => some (v ++ l)

/-- The registry entry for a doctype, described the way the spec does:
the enabled definitions watching that doctype, projected and in store
order; absent when there are none. -/
def registry_entry_claim (store : HookStore) (dt : String) : Option (List HookSummary) :=
  let l := (store.filter (fun h => h.enabled && (h.webhook_doctype == dt))).map KafkaHook.summary
  if l = [] then none else some l

/-- The applicable trigger-event set, stated the way the spec states it:
the base events, extended with the value-change events exactly when the
document is not newly inserted. -/
def claim_applicable (doc : Doc) (method : String) : Prop :=
  method ∈ ["after_insert", "on_update", "on_submit", "on_cancel", "on_trash"] ∨
  (doc.flags_in_insert = false ∧ method ∈ ["on_change", "before_update_after_submit"])

instance claim_applicable_dec (doc : Doc) (method : String) :
    Decidable (claim_applicable doc method) := by
  unfold claim_applicable
  infer_instance

/-- Membership of webhook name `w` in the executed-set of document
identity `n` on the ambient flags. -/
def execMem (st : Flags) (n w : String) : Prop :=
  w ∈ exec_get (st.kafkahook_executed.getD []) n

instance execMem_dec (st : Flags) (n w : String) : Decidable (execMem st n w) := by
  unfold execMem
  infer_instance

/-- A fresh unit of work: no ambient flags set, nothing executed, no
memoized registry. -/
def st0 : Flags := ⟨false, false, false, false, none, none⟩

/-- A matching environment whose registry holds the Template hook for
doctype `Note` and a Method hook for doctype `Invoice` guarded by the
Approved condition. -/
def hookC : HookSummary := ⟨"KH-C", "doc.status == \"Approved\"", "on_update", "Invoice"⟩

def envMatch : MatchEnv :=
  ⟨miniEval, [("Note", [KafkaHook.summary hookT]), ("Invoice", [hookC])]⟩

/-- An inserted document (first save). -/
def docIns : Doc := ⟨"Note", "DOC-0002", [("name", FieldVal.s "DOC-0002")], true⟩

/-- An Invoice document whose status is Approved. -/
def docInv : Doc :=
  ⟨"Invoice", "INV-0001", [("name", FieldVal.s "INV-0001"), ("status", FieldVal.s "Approved")], false⟩

/-- An unconditional webhook on Invoice updates. -/
def hookG : HookSummary := ⟨"KH-G", "", "on_update", "Invoice"⟩

/-- A webhook whose condition references an undefined name, so its
evaluation raises. -/
def hookBad : HookSummary := ⟨"KH-X", "undefined_name", "on_update", "Invoice"⟩

/-- A matching pass with two candidates for Invoice: the Approved-guarded
webhook first, the unconditional one second. -/
def envMatch2 : MatchEnv := ⟨miniEval, [("Invoice", [hookC, hookG])]⟩

/-- A matching pass with two candidates for Invoice where the first
candidate's condition evaluation raises. -/
def envAbort : MatchEnv := ⟨miniEval, [("Invoice", [hookBad, hookG])]⟩

/-- Validation collaborators over a store where no doctype is
submittable, templates validate, and conditions evaluate with
`miniEval`. -/
def venv : ValidateEnv :=
  ⟨fun _ => false, miniEval, fun _ => Except.ok (), fun dt => ⟨dt, "new", [], true⟩⟩

/-- A definition triggering on `on_submit` against the non-submittable
doctype `Note`. -/
def hookSub : KafkaHook :=
  ⟨"KH-S", true, "Note", "on_submit", "", "Template", tplID, "", "KS-1", "invoices"⟩

/-- A definition triggering on `before_update_after_submit` — the code
string the runtime event matcher uses for the update-after-submit
trigger — against the non-submittable doctype `Note`. -/
def hookBUAS : KafkaHook :=
  ⟨"KH-B", true, "Note", "before_update_after_submit", "", "Template", tplID, "", "KS-1", "invoices"⟩

/-! ## Claim C1 (corrected) -/

/-- C1 counterexample: with a raising template engine, the exception from
payload building escapes `_run_kafka_hook` — and hence the dequeued-task
entry point `run_kafka_hook` — with no audit record and no error-log
entry, refuting the claim that any exception from payload building, key
determination or the broker send is caught inside the Publisher, logged,
audited and never re-raised. -/
theorem publisher_catchall_counterexample :
    (_run_kafka_hook envRenderFail hookT docD1).exn = some "TemplateSyntaxError" ∧
    (_run_kafka_hook envRenderFail hookT docD1).audit = [] ∧
    (_run_kafka_hook envRenderFail hookT docD1).errorLog = [] ∧
    (run_kafka_hook envRenderFail hookT false (some docD1) "Note" []).exn =
      some "TemplateSyntaxError" :=
  ⟨rfl, rfl, rfl, rfl⟩

/-- C1 amended: inside `_run_kafka_hook`, only an exception from the
broker send is caught — it is logged to the error log and recorded as an
audit entry whose topic carries the `"Error: "` failure marker with an
absent response, and it is not re-raised; exceptions from payload
building or from partition-key determination escape the function with
nothing logged or audited. -/
theorem publisher_send_failure_caught (env : Env) (hook : KafkaHook) (doc : Doc)
    (d : WebhookData) (kp : Option String × Option Bool) (e : Err) :
    (get_webhook_data env doc hook = Except.error e →
      _run_kafka_hook env hook doc = ⟨[], [], none, some e⟩) ∧
    (get_webhook_data env doc hook = Except.ok d → hook_key hook d = Except.error e →
      _run_kafka_hook env hook doc = ⟨[], [], none, some e⟩) ∧
    (get_webhook_data env doc hook = Except.ok d → hook_key hook d = Except.ok kp →
      env.sendKafka (hook_msg hook d kp) = Except.error e →
      _run_kafka_hook env hook doc =
        ⟨[LogErr.msgTrace e],
         [⟨"Error: " ++ hook.kafka_topic, hook.kafka_settings, d.data, none⟩],
         some (hook_msg hook d kp), none⟩) := by
  refine ⟨fun h1 => ?_, fun h1 h2 => ?_, fun h1 h2 h3 => ?_⟩
  · simp only [_run_kafka_hook, h1]
  · simp only [_run_kafka_hook, h1, h2]
  · simp only [_run_kafka_hook, h1, h2, h3]

/-- C1 witness: the broker-send-failure branch of the amended claim on
concrete inputs. -/
theorem publisher_send_failure_caught_witness :
    envSendFail.sendKafka (hook_msg hookM methodResult (some "XYZ", some true)) =
      Except.error "KafkaTimeoutError" ∧
    _run_kafka_hook envSendFail hookM docD1 =
      ⟨[LogErr.msgTrace "KafkaTimeoutError"],
       [⟨"Error: " ++ hookM.kafka_topic, hookM.kafka_settings, methodResult.data, none⟩],
       some (hook_msg hookM methodResult (some "XYZ", some true)), none⟩ :=
  ⟨rfl,
    (publisher_send_failure_caught envSendFail hookM docD1 methodResult
      (some "XYZ", some true) "KafkaTimeoutError").2.2 rfl rfl rfl⟩

/-! ## Claim C5 (confirmed) -/

/-- C5: in Method mode with a non-empty method reference, when the
external function's `data` exposes an id, that id is selected as the
broker partition key and the message is flagged as a structured object;
in Template mode no key is produced and the flag is absent. -/
theorem method_key_extraction (env : Env) (hook : KafkaHook) (doc : Doc)
    (k : String) (payload : JValue) (proto : Option ProtoObj) (s : String) (v : JValue) :
    (hook.process_data = "Method" → hook.webhook_method ≠ "" →
      env.getAttr hook.webhook_method doc =
        Except.ok ⟨some (PyObj.structured k payload), proto⟩ →
      (_run_kafka_hook env hook doc).sent =
        some ⟨hook.kafka_settings, hook.kafka_topic, some k,
              some (PyObj.structured k payload), proto, some true⟩) ∧
    (hook.process_data = "Template" →
      env.render hook.webhook_json (webhook_ctx (doc.as_dict true)) = Except.ok s →
      env.jsonParse s = Except.ok v →
      (_run_kafka_hook env hook doc).sent =
        some ⟨hook.kafka_settings, hook.kafka_topic, none, some (PyObj.json v), none, none⟩) := by
  constructor
  · intro hm hw hattr
    have hdata : get_webhook_data env doc hook =
        Except.ok ⟨some (PyObj.structured k payload), proto⟩ := by
      simp only [get_webhook_data, hm, if_pos rfl]
      exact hattr
    have hkey : hook_key hook ⟨some (PyObj.structured k payload), proto⟩ =
        Except.ok (some k, some true) := by
      unfold hook_key
      rw [if_pos ⟨hm, hw⟩]
      rfl
    simp only [_run_kafka_hook, hdata, hkey]
    cases henv : env.sendKafka (hook_msg hook ⟨some (PyObj.structured k payload), proto⟩
        (some k, some true)) <;>
      simp [hook_msg, henv]
  · intro hm hrender hparse
    have hne : ¬ hook.process_data = "Method" := by
      rw [hm]; intro h; exact absurd h (by decide)
    have hdata : get_webhook_data env doc hook = Except.ok ⟨some (PyObj.json v), none⟩ := by
      simp only [get_webhook_data, if_neg hne, hrender, hparse]
    have hkey : hook_key hook ⟨some (PyObj.json v), none⟩ = Except.ok (none, none) := by
      unfold hook_key
      rw [if_neg]
      intro hc
      exact hne hc.1
    simp only [_run_kafka_hook, hdata, hkey]
    cases henv : env.sendKafka (hook_msg hook ⟨some (PyObj.json v), none⟩ (none, none)) <;>
      simp [hook_msg, henv]

/-- C5 witness: both branches at concrete inputs — the Method hook
produces key `"XYZ"` with the structured flag set, the Template hook
produces no key. -/
theorem method_key_extraction_witness :
    (_run_kafka_hook envOk hookM docD1).sent =
      some ⟨"KS-1", "invoices", some "XYZ", some (PyObj.structured "XYZ" (JValue.obj [])),
            some "protobytes", some true⟩ ∧
    (_run_kafka_hook envOk hookT docD1).sent =
      some ⟨"KS-1", "invoices", none, some (PyObj.json jsonID), none, none⟩ :=
  ⟨(method_key_extraction envOk hookM docD1 "XYZ" (JValue.obj []) (some "protobytes")
      "" JValue.null).1 rfl (by decide) rfl,
   (method_key_extraction envOk hookT docD1 "" JValue.null none
      renderedID jsonID).2 rfl rfl rfl⟩

/-! ## Claim C6 (confirmed) -/

/-- C6: in Template mode the built payload is exactly the JSON value
obtained by serializing the document with dates coerced to strings,
rendering the template body against `{**WEBHOOK_CONTEXT, "doc": doc}` and
parsing the rendered text; the binary `proto_obj` slot is empty. -/
theorem template_payload_roundtrip (env : Env) (doc : Doc) (hook : KafkaHook)
    (s : String) (v : JValue)
    (hmode : hook.process_data = "Template")
    (hrender : env.render hook.webhook_json (webhook_ctx (doc.as_dict true)) = Except.ok s)
    (hparse : env.jsonParse s = Except.ok v) :
    get_webhook_data env doc hook = Except.ok ⟨some (PyObj.json v), none⟩ := by
  have hne : ¬ hook.process_data = "Method" := by
    rw [hmode]; intro h; exact absurd h (by decide)
  simp only [get_webhook_data, if_neg hne, hrender, hparse]

/-- C6 witness: the template body `\x7b"id": "\x7b\x7b doc.name \x7d\x7d"\x7d`
against the document named `DOC-0001` renders to
`\x7b"id": "DOC-0001"\x7d` and builds exactly the structured value
`\x7b"id": "DOC-0001"\x7d` with an empty binary slot. -/
theorem template_payload_roundtrip_witness :
    hookT.process_data = "Template" ∧
    envOk.render hookT.webhook_json (webhook_ctx (docD1.as_dict true)) =
      Except.ok renderedID ∧
    envOk.jsonParse renderedID = Except.ok jsonID ∧
    get_webhook_data envOk docD1 hookT = Except.ok ⟨some (PyObj.json jsonID), none⟩ :=
  ⟨rfl, rfl, rfl, template_payload_roundtrip envOk docD1 hookT renderedID jsonID rfl rfl rfl⟩

/-! ## Claim C10 (corrected) -/

/-- C10 counterexample: on the full-document path a broker-send exception
does not propagate to the caller — `run_kafka_hook` returns with no
escaping exception (whether or not the call came from a live request)
even though the send raised, refuting the claim that exceptions raised
during dispatch propagate unconditionally. -/
theorem doc_path_counterexample :
    envSendFail.sendKafka (hook_msg hookM methodResult (some "XYZ", some true)) =
      Except.error "KafkaTimeoutError" ∧
    (run_kafka_hook envSendFail hookM true (some docD1) "Note" []).exn = none ∧
    (run_kafka_hook envSendFail hookM false (some docD1) "Note" []).exn = none :=
  ⟨rfl, rfl, rfl⟩

/-- C10 amended: on the full-document path, exceptions from payload
building and from key extraction propagate to the caller whether or not
the call came from a live request (the catch-log-and-continue protection
applies only to the identity-list path), while a broker-send exception is
caught inside `_run_kafka_hook` and never propagates. -/
theorem doc_path_propagation (env : Env) (hook : KafkaHook) (doc : Doc)
    (is_from_request : Bool) (doctype : String) (doc_list : List String)
    (d : WebhookData) (kp : Option String × Option Bool) (e : Err) :
    (get_webhook_data env doc hook = Except.error e →
      (run_kafka_hook env hook is_from_request (some doc) doctype doc_list).exn = some e) ∧
    (get_webhook_data env doc hook = Except.ok d → hook_key hook d = Except.error e →
      (run_kafka_hook env hook is_from_request (some doc) doctype doc_list).exn = some e) ∧
    (get_webhook_data env doc hook = Except.ok d → hook_key hook d = Except.ok kp →
      env.sendKafka (hook_msg hook d kp) = Except.error e →
      (run_kafka_hook env hook is_from_request (some doc) doctype doc_list).exn = none) := by
  refine ⟨fun h1 => ?_, fun h1 h2 => ?_, fun h1 h2 h3 => ?_⟩
  · simp only [run_kafka_hook, _run_kafka_hook, h1]
  · simp only [run_kafka_hook, _run_kafka_hook, h1, h2]
  · simp only [run_kafka_hook, _run_kafka_hook, h1, h2, h3]

/-- C10 witness: a payload-building failure propagates out of the
full-document path from a background (non-request) call. -/
theorem doc_path_propagation_witness :
    get_webhook_data envRenderFail docD1 hookT = Except.error "TemplateSyntaxError" ∧
    (run_kafka_hook envRenderFail hookT false (some docD1) "Note" []).exn =
      some "TemplateSyntaxError" :=
  ⟨rfl,
    (doc_path_propagation envRenderFail hookT docD1 false "Note" []
      ⟨none, none⟩ (none, none) "TemplateSyntaxError").1 rfl⟩

/-! ## Claim C4 (batch path failure semantics) -/

theorem run_list_no_request (env : Env) (hook : KafkaHook) (dt : String) :
    ∀ l, (run_kafka_hook_list env hook false dt l).exn = none ∧
      (run_kafka_hook_list env hook false dt l).attempts = l := by
  intro l
  induction l with
  | nil => exact ⟨rfl, rfl⟩
  | cons m rest ih =>
    simp only [run_kafka_hook_list]
    cases hg : env.getDoc dt m with
    | error e => simpa using ih
    | ok d =>
      cases hr : (_run_kafka_hook env hook d).exn with
      | some e => simp only [hr]; simpa using ih
      | none => simp only [hr]; simpa using ih

theorem run_list_failure_logged (env : Env) (hook : KafkaHook) (dt n : String) (e : Err)
    (hg : env.getDoc dt n = Except.error e) :
    ∀ l, n ∈ l →
      LogErr.title "Error running Kafka Hook" ∈
        (run_kafka_hook_list env hook false dt l).errorLog := by
  intro l
  induction l with
  | nil => intro h; cases h
  | cons m rest ih =>
    intro hmem
    simp only [run_kafka_hook_list]
    rcases List.mem_cons.mp hmem with hEq | hmem'
    · subst hEq
      rw [hg]
      simp
    · cases hgm : env.getDoc dt m with
      | error e2 =>
        simp only [hgm]
        exact List.mem_cons_of_mem _ (ih hmem')
      | ok d =>
        cases hr : (_run_kafka_hook env hook d).exn with
        | some e2 =>
          simp only [hr]
          exact List.mem_append_right _ (List.mem_cons_of_mem _ (ih hmem'))
        | none =>
          simp only [hr]
          exact List.mem_append_right _ (ih hmem')

theorem run_list_request_aborts (env : Env) (hook : KafkaHook) (dt n : String)
    (l2 : List String) (e : Err) (hg : env.getDoc dt n = Except.error e) :
    ∀ l1, (∀ m ∈ l1, okItem env hook dt m) →
      (run_kafka_hook_list env hook true dt (l1 ++ n :: l2)).exn = some e ∧
      (run_kafka_hook_list env hook true dt (l1 ++ n :: l2)).attempts = l1 ++ [n] := by
  intro l1
  induction l1 with
  | nil =>
    intro _
    simp only [List.nil_append, run_kafka_hook_list, hg]
    exact ⟨rfl, rfl⟩
  | cons m rest ih =>
    intro hok
    obtain ⟨d, hgm, hr⟩ := hok m (List.mem_cons_self m rest)
    have ihr := ih (fun x hx => hok x (List.mem_cons_of_mem _ hx))
    simp only [List.cons_append, run_kafka_hook_list, hgm, hr]
    exact ⟨ihr.1, by simp [ihr.2]⟩

/-- C4: on the identity-list path, when the call did not come from a live
request no exception ever escapes and every identity in the list is
processed (resolution is attempted for each, and a resolution failure
leaves an error-log entry); when the call came from a live request, a
resolution failure re-raises, aborting the batch after the failing
identity. -/
theorem batch_resolution_semantics (env : Env) (hook : KafkaHook) (doctype : String)
    (doc_list l1 l2 : List String) (n : String) (e e2 : Err) :
    ((run_kafka_hook env hook false none doctype doc_list).exn = none ∧
     (run_kafka_hook env hook false none doctype doc_list).attempts = doc_list) ∧
    (env.getDoc doctype n = Except.error e2 → n ∈ doc_list →
      LogErr.title "Error running Kafka Hook" ∈
        (run_kafka_hook env hook false none doctype doc_list).errorLog) ∧
    (doc_list = l1 ++ n :: l2 → (∀ m ∈ l1, okItem env hook doctype m) →
      env.getDoc doctype n = Except.error e →
      (run_kafka_hook env hook true none doctype doc_list).exn = some e ∧
      (run_kafka_hook env hook true none doctype doc_list).attempts = l1 ++ [n]) := by
  refine ⟨?_, ?_, ?_⟩
  · exact run_list_no_request env hook doctype doc_list
  · intro hg hmem
    exact run_list_failure_logged env hook doctype n e2 hg doc_list hmem
  · intro hsplit hok hg
    subst hsplit
    exact run_list_request_aborts env hook doctype n l2 e hg l1 hok

/-- C4 witness: a batch of three identities where the middle one fails to
resolve — in background mode nothing escapes, all three are attempted,
and the failure is logged; from a live request the same batch re-raises
and stops after the failing identity. -/
theorem batch_resolution_semantics_witness :
    (run_kafka_hook envOk hookT false none "Note" ["DOC-0001", "MISSING", "DOC-0001"]).exn
        = none ∧
    (run_kafka_hook envOk hookT false none "Note" ["DOC-0001", "MISSING", "DOC-0001"]).attempts
        = ["DOC-0001", "MISSING", "DOC-0001"] ∧
    LogErr.title "Error running Kafka Hook" ∈
      (run_kafka_hook envOk hookT false none "Note" ["DOC-0001", "MISSING", "DOC-0001"]).errorLog ∧
    (run_kafka_hook envOk hookT true none "Note" ["DOC-0001", "MISSING", "DOC-0001"]).exn
        = some "DoesNotExistError" ∧
    (run_kafka_hook envOk hookT true none "Note" ["DOC-0001", "MISSING", "DOC-0001"]).attempts
        = ["DOC-0001", "MISSING"] := by
  have h := batch_resolution_semantics envOk hookT "Note"
    ["DOC-0001", "MISSING", "DOC-0001"] ["DOC-0001"] ["DOC-0001"] "MISSING"
    "DoesNotExistError" "DoesNotExistError"
  refine ⟨h.1.1, h.1.2, h.2.1 rfl (by decide), ?_, ?_⟩
  · exact (h.2.2 rfl (by
      intro m hm
      have hm' : m = "DOC-0001" := by
        cases hm with
        | head => rfl
        | tail _ h2 => cases h2
      subst hm'
      exact ⟨docD1, rfl, rfl⟩) rfl).1
  · exact (h.2.2 rfl (by
      intro m hm
      have hm' : m = "DOC-0001" := by
        cases hm with
        | head => rfl
        | tail _ h2 => cases h2
      subst hm'
      exact ⟨docD1, rfl, rfl⟩) rfl).2

/-! ## Claim C7 (registry cache) -/

/-- Appending a group member to an association list of lists: the target
key's entry grows at the end, every other key is untouched. -/
theorem alist_get_setdefault_append {α : Type} (m : List (String × List α))
    (k key : String) (v : α) :
    alist_get (setdefault_append m k v) key =
      if k = key then some ((alist_get m key).getD [] ++ [v]) else alist_get m key := by
  induction m with
  | nil =>
    by_cases h : k = key <;> simp [setdefault_append, alist_get, h]
  | cons hd tl ih =>
    obtain ⟨k', vs⟩ := hd
    by_cases h1 : k' = k
    · subst h1
      by_cases h2 : k' = key
      · subst h2
        simp [setdefault_append, alist_get]
      · simp [setdefault_append, alist_get, h2]
    · by_cases h2 : k' = key
      · subst h2
        have hk : ¬ k = k' := fun h => h1 h.symm
        simp [setdefault_append, alist_get, h1, hk]
      · simp [setdefault_append, alist_get, h1, h2, ih]

theorem group_hooks_get (dt : String) :
    ∀ (ws : List HookSummary) (m : Registry),
      alist_get (group_hooks ws m) dt =
        combineEntry (alist_get m dt) (ws.filter (fun w => w.webhook_doctype == dt)) := by
  intro ws
  induction ws with
  | nil =>
    intro m
    simp only [group_hooks, List.filter_nil]
    cases h : alist_get m dt <;> simp [combineEntry]
  | cons w ws ih =>
    intro m
    simp only [group_hooks, List.filter_cons]
    rw [ih]
    rw [alist_get_setdefault_append]
    by_cases h : w.webhook_doctype = dt
    · rw [if_pos h]
      have hb : (w.webhook_doctype == dt) = true := beq_iff_eq.mpr h
      rw [hb]
      simp only [if_true]
      cases hm : alist_get m dt with
      | none => cases hf : ws.filter (fun w => w.webhook_doctype == dt) <;>
          simp [combineEntry]
      | some v => cases hf : ws.filter (fun w => w.webhook_doctype == dt) <;>
          simp [combineEntry]
    · rw [if_neg h]
      have hb : (w.webhook_doctype == dt) = false := by
        simp [beq_iff_eq, h]
      rw [hb]
      simp only [Bool.false_eq_true, if_false]

theorem get_all_enabled_filter (dt : String) :
    ∀ store : HookStore,
      (get_all_enabled store).filter (fun w => w.webhook_doctype == dt) =
        (store.filter (fun h => h.enabled && (h.webhook_doctype == dt))).map KafkaHook.summary := by
  intro store
  induction store with
  | nil => rfl
  | cons h tl ih =>
    simp only [get_all_enabled, List.filter_cons, List.map]
    by_cases he : h.enabled
    · by_cases hd : h.webhook_doctype = dt
      · simp [get_all_enabled, he, hd, KafkaHook.summary, List.filter_cons] at ih ⊢
        exact ih
      · simp [get_all_enabled, he, hd, KafkaHook.summary, List.filter_cons] at ih ⊢
        exact ih
    · simp [get_all_enabled, he, List.filter_cons] at ih ⊢
      exact ih

/-- C7: a cache hit returns the cached grouping with no store query, so
repeated `fetch_webhooks_from_redis` calls without an intervening
invalidation agree and only the first miss queries; the `on_update` and
`on_trash` hooks of a definition evict the whole cached value, so the
next fetch re-queries and rebuilds from the current store; and the built
grouping indexes, per doctype, exactly the enabled definitions watching
it, projected, in store order. -/
theorem registry_cache_behavior (c : CacheState) (store store2 : HookStore) (dt : String) :
    ((fetch_webhooks_from_redis (fetch_webhooks_from_redis c store).cache store2).registry =
        (fetch_webhooks_from_redis c store).registry ∧
     (fetch_webhooks_from_redis (fetch_webhooks_from_redis c store).cache store2).queries = 0) ∧
    (fetch_webhooks_from_redis ⟨none⟩ store =
      ⟨⟨some (generate_kafkahook store)⟩, generate_kafkahook store, 1⟩) ∧
    (fetch_webhooks_from_redis (kafka_hook_on_update c) store2 =
      ⟨⟨some (generate_kafkahook store2)⟩, generate_kafkahook store2, 1⟩) ∧
    (fetch_webhooks_from_redis (kafka_hook_on_trash c) store2 =
      ⟨⟨some (generate_kafkahook store2)⟩, generate_kafkahook store2, 1⟩) ∧
    alist_get (generate_kafkahook store) dt = registry_entry_claim store dt := by
  refine ⟨?_, rfl, rfl, rfl, ?_⟩
  · cases hc : c.kafkahook with
    | some r => simp [fetch_webhooks_from_redis, hc]
    | none => simp [fetch_webhooks_from_redis, hc]
  · unfold generate_kafkahook
    rw [group_hooks_get dt (get_all_enabled store) []]
    rw [get_all_enabled_filter dt store]
    unfold registry_entry_claim
    cases hl : (store.filter (fun h => h.enabled && (h.webhook_doctype == dt))).map
        KafkaHook.summary with
    | nil => simp [combineEntry, alist_get]
    | cons a l => simp [combineEntry, alist_get]

/-! ## Claim C3 (event-set gating) -/

theorem claim_applicable_iff (doc : Doc) (method : String) :
    claim_applicable doc method ↔ method ∈ event_list doc := by
  unfold claim_applicable event_list
  cases h : doc.flags_in_insert <;> simp [h] <;> tauto

/-- C3: an event outside the applicable set — the base set
after_insert/on_update/on_submit/on_cancel/on_trash, extended with
on_change and before_update_after_submit exactly when the document is not
newly inserted — is a complete no-op for `run_webhooks`: the flags are
untouched, nothing is enqueued, nothing raises.  In particular
`on_change` on a first save (insert) dispatches nothing. -/
theorem run_webhooks_event_gate (env : MatchEnv) (st : Flags) (doc : Doc) (method : String)
    (h : ¬ claim_applicable doc method) :
    run_webhooks env st doc method = ⟨st, [], none⟩ := by
  have h2 : method ∉ event_list doc := fun hm => h ((claim_applicable_iff doc method).mpr hm)
  unfold run_webhooks
  by_cases hg : st.in_import ∨ st.in_patch ∨ st.in_install ∨ st.in_migrate
  · rw [if_pos hg]
  · rw [if_neg hg, if_pos h2]

/-- C3 witness: `on_change` against a document being inserted is a
complete no-op. -/
theorem run_webhooks_event_gate_witness :
    ¬ claim_applicable docIns "on_change" ∧
    run_webhooks envMatch st0 docIns "on_change" = ⟨st0, [], none⟩ :=
  ⟨by decide, run_webhooks_event_gate envMatch st0 docIns "on_change" (by decide)⟩

/-! ## Claim C8 (corrected: condition gating holds only for webhooks the
pass reaches — an earlier candidate's raising evaluation aborts the
loop) -/

theorem exec_get_append_self (m : ExecMap) (k v : String) :
    exec_get (exec_append m k v) k = exec_get m k ++ [v] := by
  unfold exec_get exec_append
  rw [alist_get_setdefault_append, if_pos rfl]
  rfl

theorem exec_get_append_other (m : ExecMap) (k k' v : String) (h : k ≠ k') :
    exec_get (exec_append m k v) k' = exec_get m k' := by
  unfold exec_get exec_append
  rw [alist_get_setdefault_append, if_neg h]

/-- C8 counterexample: in a matching pass with two candidates for the
doctype, the first candidate's condition evaluation raises, aborting the
loop — so the second webhook, eligible by every criterion of the claim
(registered for the doctype, matching doc event, not yet executed, empty
condition), produces no dispatch, refuting the claim that an eligible
webhook with an empty condition always produces a dispatch. -/
theorem condition_gating_counterexample :
    alist_get envAbort.fetched docInv.doctype = some [hookBad, hookG] ∧
    hookG.webhook_docevent = "on_update" ∧
    hookG.condition = "" ∧
    "on_update" ∈ event_list docInv ∧
    "KH-G" ∉ exec_get (st0.kafkahook_executed.getD []) docInv.name ∧
    envAbort.safeEval hookBad.condition docInv = Except.error "NameError" ∧
    (run_webhooks envAbort st0 docInv "on_update").tasks = [] ∧
    (run_webhooks envAbort st0 docInv "on_update").exn = some "NameError" :=
  ⟨rfl, rfl, rfl, by decide, by decide, rfl, rfl, rfl⟩

/-- Every task enqueued by the webhook loop carries the name of one of
the candidates it iterated over. -/
theorem run_webhooks_loop_task_names (env : MatchEnv) (doc : Doc) (method : String) :
    ∀ (ws : List HookSummary) (ex : ExecMap) (t : HookTask),
      t ∈ (run_webhooks_loop env doc method ws ex).tasks →
      t.kafka_hook_name ∈ ws.map HookSummary.name := by
  intro ws
  induction ws with
  | nil =>
    intro ex t ht
    simp [run_webhooks_loop] at ht
  | cons v ws ih =>
    intro ex t ht
    rw [List.map_cons]
    by_cases h1 : v.webhook_docevent ≠ method
    · have heq : run_webhooks_loop env doc method (v :: ws) ex =
          run_webhooks_loop env doc method ws ex := by
        simp only [run_webhooks_loop]
        rw [if_pos h1]
      rw [heq] at ht
      exact List.mem_cons_of_mem _ (ih ex t ht)
    · by_cases h2 : v.name ∈ exec_get ex doc.name
      · have heq : run_webhooks_loop env doc method (v :: ws) ex =
            run_webhooks_loop env doc method ws ex := by
          simp only [run_webhooks_loop]
          rw [if_neg h1, if_pos h2]
        rw [heq] at ht
        exact List.mem_cons_of_mem _ (ih ex t ht)
      · cases hc : (if v.condition = "" then Except.ok true
            else env.safeEval v.condition doc : Except Err Bool) with
        | error e =>
          have heq : run_webhooks_loop env doc method (v :: ws) ex = ⟨ex, [], some e⟩ := by
            simp only [run_webhooks_loop]
            rw [if_neg h1, if_neg h2, hc]
          rw [heq] at ht
          simp at ht
        | ok bb =>
          cases bb with
          | false =>
            have heq : run_webhooks_loop env doc method (v :: ws) ex =
                run_webhooks_loop env doc method ws ex := by
              simp only [run_webhooks_loop]
              rw [if_neg h1, if_neg h2, hc]
            rw [heq] at ht
            exact List.mem_cons_of_mem _ (ih ex t ht)
          | true =>
            have htasks : (run_webhooks_loop env doc method (v :: ws) ex).tasks =
                (⟨v.name, doc⟩ : HookTask) ::
                  (run_webhooks_loop env doc method ws (exec_append ex doc.name v.name)).tasks := by
              have heq : run_webhooks_loop env doc method (v :: ws) ex =
                  ⟨(run_webhooks_loop env doc method ws (exec_append ex doc.name v.name)).exec,
                    ⟨v.name, doc⟩ ::
                      (run_webhooks_loop env doc method ws (exec_append ex doc.name v.name)).tasks,
                    (run_webhooks_loop env doc method ws (exec_append ex doc.name v.name)).exn⟩ := by
                simp only [run_webhooks_loop]
                rw [if_neg h1, if_neg h2, hc]
              rw [heq]
            rw [htasks] at ht
            rcases List.mem_cons.mp ht with hh | hh
            · rw [hh]
              exact List.mem_cons_self _ _
            · exact List.mem_cons_of_mem _ (ih _ t hh)

/-- Gating invariant of the webhook loop for a candidate `w` at an
arbitrary position: when every earlier candidate matching the event has
an empty condition or a condition whose evaluation returns (does not
raise), and `w`'s name is not yet executed and not shared with the other
candidates, then an empty condition on `w` always enqueues its task and
a non-empty condition enqueues it exactly when it evaluates truthy. -/
theorem run_webhooks_loop_gating (env : MatchEnv) (doc : Doc) (method : String)
    (w : HookSummary) (post : List HookSummary) (b : Bool)
    (hev : w.webhook_docevent = method)
    (hfresh_post : w.name ∉ post.map HookSummary.name) :
    ∀ (pre : List HookSummary) (ex : ExecMap),
      (∀ v ∈ pre, v.webhook_docevent = method →
        v.condition = "" ∨ ∃ bb, env.safeEval v.condition doc = Except.ok bb) →
      w.name ∉ exec_get ex doc.name →
      w.name ∉ pre.map HookSummary.name →
      (w.condition = "" →
        (⟨w.name, doc⟩ : HookTask) ∈
          (run_webhooks_loop env doc method (pre ++ w :: post) ex).tasks) ∧
      (w.condition ≠ "" → env.safeEval w.condition doc = Except.ok b →
        ((⟨w.name, doc⟩ : HookTask) ∈
            (run_webhooks_loop env doc method (pre ++ w :: post) ex).tasks ↔ b = true)) := by
  intro pre
  induction pre with
  | nil =>
    intro ex _ hx _
    rw [List.nil_append]
    have hfire : ∀ res : Except Err Bool,
        (if w.condition = "" then Except.ok true
          else env.safeEval w.condition doc : Except Err Bool) = Except.ok true →
        (run_webhooks_loop env doc method (w :: post) ex).tasks =
          (⟨w.name, doc⟩ : HookTask) ::
            (run_webhooks_loop env doc method post (exec_append ex doc.name w.name)).tasks := by
      intro _ hc
      have heq : run_webhooks_loop env doc method (w :: post) ex =
          ⟨(run_webhooks_loop env doc method post (exec_append ex doc.name w.name)).exec,
            ⟨w.name, doc⟩ ::
              (run_webhooks_loop env doc method post (exec_append ex doc.name w.name)).tasks,
            (run_webhooks_loop env doc method post (exec_append ex doc.name w.name)).exn⟩ := by
        simp only [run_webhooks_loop, hev]
        rw [if_neg (not_not_intro rfl), if_neg hx, hc]
      rw [heq]
    constructor
    · intro hcond
      rw [hfire (Except.ok true) (by rw [if_pos hcond])]
      exact List.mem_cons_self _ _
    · intro hcond heval
      cases b with
      | true =>
        rw [hfire (Except.ok true) (by rw [if_neg hcond]; exact heval)]
        simp
      | false =>
        have heq : run_webhooks_loop env doc method (w :: post) ex =
            run_webhooks_loop env doc method post ex := by
          simp only [run_webhooks_loop, hev]
          rw [if_neg (not_not_intro rfl), if_neg hx, if_neg hcond, heval]
        rw [heq]
        constructor
        · intro hmem
          exact absurd (run_webhooks_loop_task_names env doc method post ex _ hmem) hfresh_post
        · intro hb
          exact absurd hb (by simp)
  | cons v pre' ih =>
    intro ex hpre hx hfresh
    have hfv1 : w.name ≠ v.name := fun h => hfresh (by
      rw [List.map_cons]
      exact h ▸ List.mem_cons_self _ _)
    have hfv2 : w.name ∉ pre'.map HookSummary.name := fun h => hfresh (by
      rw [List.map_cons]
      exact List.mem_cons_of_mem _ h)
    have hpre' : ∀ v' ∈ pre', v'.webhook_docevent = method →
        v'.condition = "" ∨ ∃ bb, env.safeEval v'.condition doc = Except.ok bb :=
      fun v' hv' => hpre v' (List.mem_cons_of_mem _ hv')
    rw [List.cons_append]
    by_cases h1 : v.webhook_docevent ≠ method
    · have heq : run_webhooks_loop env doc method (v :: (pre' ++ w :: post)) ex =
          run_webhooks_loop env doc method (pre' ++ w :: post) ex := by
        simp only [run_webhooks_loop]
        rw [if_pos h1]
      rw [heq]
      exact ih ex hpre' hx hfv2
    · have hevv : v.webhook_docevent = method := not_not.mp h1
      by_cases h2 : v.name ∈ exec_get ex doc.name
      · have heq : run_webhooks_loop env doc method (v :: (pre' ++ w :: post)) ex =
            run_webhooks_loop env doc method (pre' ++ w :: post) ex := by
          simp only [run_webhooks_loop]
          rw [if_neg h1, if_pos h2]
        rw [heq]
        exact ih ex hpre' hx hfv2
      · have hfirecase : ∀ hc : (if v.condition = "" then Except.ok true
            else env.safeEval v.condition doc : Except Err Bool) = Except.ok true,
            (w.condition = "" →
              (⟨w.name, doc⟩ : HookTask) ∈
                (run_webhooks_loop env doc method (v :: (pre' ++ w :: post)) ex).tasks) ∧
            (w.condition ≠ "" → env.safeEval w.condition doc = Except.ok b →
              ((⟨w.name, doc⟩ : HookTask) ∈
                  (run_webhooks_loop env doc method (v :: (pre' ++ w :: post)) ex).tasks
                ↔ b = true)) := by
          intro hc
          have htasks : (run_webhooks_loop env doc method (v :: (pre' ++ w :: post)) ex).tasks =
              (⟨v.name, doc⟩ : HookTask) ::
                (run_webhooks_loop env doc method (pre' ++ w :: post)
                  (exec_append ex doc.name v.name)).tasks := by
            have heq : run_webhooks_loop env doc method (v :: (pre' ++ w :: post)) ex =
                ⟨(run_webhooks_loop env doc method (pre' ++ w :: post)
                    (exec_append ex doc.name v.name)).exec,
                  ⟨v.name, doc⟩ ::
                    (run_webhooks_loop env doc method (pre' ++ w :: post)
                      (exec_append ex doc.name v.name)).tasks,
                  (run_webhooks_loop env doc method (pre' ++ w :: post)
                    (exec_append ex doc.name v.name)).exn⟩ := by
              simp only [run_webhooks_loop]
              rw [if_neg h1, if_neg h2, hc]
            rw [heq]
          have hx' : w.name ∉ exec_get (exec_append ex doc.name v.name) doc.name := by
            rw [exec_get_append_self]
            intro hmem
            rcases List.mem_append.mp hmem with hh | hh
            · exact hx hh
            · exact hfv1 (List.mem_singleton.mp hh)
          have IH := ih (exec_append ex doc.name v.name) hpre' hx' hfv2
          have hhead : (⟨w.name, doc⟩ : HookTask) ≠ ⟨v.name, doc⟩ :=
            fun hhd => hfv1 (congrArg HookTask.kafka_hook_name hhd)
          constructor
          · intro hcond
            rw [htasks]
            exact List.mem_cons_of_mem _ (IH.1 hcond)
          · intro hcond heval
            rw [htasks]
            rw [List.mem_cons]
            rw [← IH.2 hcond heval]
            constructor
            · intro hmem
              rcases hmem with hh | hh
              · exact absurd hh hhead
              · exact hh
            · exact fun hh => Or.inr hh
        by_cases hvc : v.condition = ""
        · exact hfirecase (by rw [if_pos hvc])
        · obtain ⟨bb, hbb⟩ := (hpre v (List.mem_cons_self _ _) hevv).resolve_left hvc
          cases bb with
          | true => exact hfirecase (by rw [if_neg hvc]; exact hbb)
          | false =>
            have heq : run_webhooks_loop env doc method (v :: (pre' ++ w :: post)) ex =
                run_webhooks_loop env doc method (pre' ++ w :: post) ex := by
              simp only [run_webhooks_loop]
              rw [if_neg h1, if_neg h2, if_neg hvc, hbb]
            rw [heq]
            exact ih ex hpre' hx hfv2

/-- C8 amended: eligibility alone does not guarantee the dispatch — an
earlier candidate whose condition evaluation raises aborts the pass, so
later eligible webhooks (empty condition included) do not fire.  For a
webhook the pass reaches — every earlier candidate for the doctype either
targets a different event or carries an empty condition or one whose
evaluation returns without raising, and the webhook's name is not yet
executed and not shared with the other candidates — an empty condition
always enqueues the dispatch task, and a non-empty condition enqueues it
exactly when the sandboxed evaluation of the condition against the live
document is truthy. -/
theorem condition_gating (env : MatchEnv) (st : Flags) (doc : Doc) (w : HookSummary)
    (pre post : List HookSummary) (method : String) (b : Bool)
    (hflags : st.in_import = false ∧ st.in_patch = false ∧
      st.in_install = false ∧ st.in_migrate = false)
    (hmeth : method ∈ event_list doc)
    (hreg : alist_get (st.kafkahook.getD env.fetched) doc.doctype = some (pre ++ w :: post))
    (hev : w.webhook_docevent = method)
    (hnotexec : w.name ∉ exec_get (st.kafkahook_executed.getD []) doc.name)
    (hfresh_pre : w.name ∉ pre.map HookSummary.name)
    (hfresh_post : w.name ∉ post.map HookSummary.name)
    (hpre : ∀ v ∈ pre, v.webhook_docevent = method →
      v.condition = "" ∨ ∃ bb, env.safeEval v.condition doc = Except.ok bb) :
    (w.condition = "" →
      (⟨w.name, doc⟩ : HookTask) ∈ (run_webhooks env st doc method).tasks) ∧
    (w.condition ≠ "" → env.safeEval w.condition doc = Except.ok b →
      ((⟨w.name, doc⟩ : HookTask) ∈ (run_webhooks env st doc method).tasks ↔ b = true)) := by
  have hg : ¬ (st.in_import ∨ st.in_patch ∨ st.in_install ∨ st.in_migrate) := by
    simp [hflags.1, hflags.2.1, hflags.2.2.1, hflags.2.2.2]
  have hm2 : ¬ method ∉ event_list doc := not_not_intro hmeth
  have hne : pre ++ w :: post ≠ [] := by simp
  have htasks : (run_webhooks env st doc method).tasks =
      (run_webhooks_loop env doc method (pre ++ w :: post)
        (st.kafkahook_executed.getD [])).tasks := by
    simp only [run_webhooks]
    rw [if_neg hg, if_neg hm2, hreg]
    simp [hne]
  rw [htasks]
  exact run_webhooks_loop_gating env doc method w post b hev hfresh_post pre
    (st.kafkahook_executed.getD []) hpre hnotexec hfresh_pre

/-- C8 witness: in a two-candidate pass over the Approved invoice, the
unconditional webhook reached after the Approved-guarded one is
enqueued, and the Approved-guarded webhook itself is enqueued since its
condition evaluates truthy. -/
theorem condition_gating_witness :
    (⟨"KH-G", docInv⟩ : HookTask) ∈ (run_webhooks envMatch2 st0 docInv "on_update").tasks ∧
    ((⟨"KH-C", docInv⟩ : HookTask) ∈ (run_webhooks envMatch2 st0 docInv "on_update").tasks
      ↔ true = true) :=
  ⟨(condition_gating envMatch2 st0 docInv hookG [hookC] [] "on_update" true
      ⟨rfl, rfl, rfl, rfl⟩ (by decide) rfl rfl (by decide) (by decide) (by decide)
      (by
        intro v hv _
        cases hv with
        | head => exact Or.inr ⟨true, rfl⟩
        | tail _ hh => cases hh)).1 rfl,
   (condition_gating envMatch2 st0 docInv hookC [] [hookG] "on_update" true
      ⟨rfl, rfl, rfl, rfl⟩ (by decide) rfl rfl (by decide) (by decide) (by decide)
      (by
        intro v hv
        cases hv)).2 (by decide) rfl⟩

/-! ## Claim C2 (dedup invariant) -/

theorem countTasks_cons (w n : String) (t : HookTask) (ts : List HookTask) :
    countTasks w n (t :: ts) =
      (if t.kafka_hook_name = w ∧ t.doc.name = n then 1 else 0) + countTasks w n ts := by
  unfold countTasks
  rw [List.filter_cons]
  by_cases h : t.kafka_hook_name = w ∧ t.doc.name = n
  · simp [h, Nat.add_comm]
  · simp [h]

theorem countTasks_append (w n : String) (a b : List HookTask) :
    countTasks w n (a ++ b) = countTasks w n a + countTasks w n b := by
  unfold countTasks
  rw [List.filter_append, List.length_append]

/-- Loop invariant of the dedup tracker: within one pass, a webhook name
contributes at most one task for a given document identity — none at all
if it is already recorded — and it ends up recorded exactly when it was
recorded before or a task was produced. -/
theorem run_webhooks_loop_dedup (env : MatchEnv) (doc : Doc) (method : String) (w n : String) :
    ∀ (ws : List HookSummary) (ex : ExecMap),
      countTasks w n (run_webhooks_loop env doc method ws ex).tasks ≤
        (if w ∈ exec_get ex n then 0 else 1) ∧
      (w ∈ exec_get (run_webhooks_loop env doc method ws ex).exec n ↔
        w ∈ exec_get ex n ∨ 1 ≤ countTasks w n (run_webhooks_loop env doc method ws ex).tasks) := by
  intro ws
  induction ws with
  | nil =>
    intro ex
    refine ⟨by simp [run_webhooks_loop, countTasks], by simp [run_webhooks_loop, countTasks]⟩
  | cons v ws ih =>
    intro ex
    by_cases h1 : v.webhook_docevent ≠ method
    · have heq : run_webhooks_loop env doc method (v :: ws) ex =
          run_webhooks_loop env doc method ws ex := by
        simp only [run_webhooks_loop]
        rw [if_pos h1]
      rw [heq]
      exact ih ex
    · by_cases h2 : v.name ∈ exec_get ex doc.name
      · have heq : run_webhooks_loop env doc method (v :: ws) ex =
            run_webhooks_loop env doc method ws ex := by
          simp only [run_webhooks_loop]
          rw [if_neg h1, if_pos h2]
        rw [heq]
        exact ih ex
      · cases hc : (if v.condition = "" then Except.ok true
            else env.safeEval v.condition doc : Except Err Bool) with
        | error e =>
          have heq : run_webhooks_loop env doc method (v :: ws) ex = ⟨ex, [], some e⟩ := by
            simp only [run_webhooks_loop]
            rw [if_neg h1, if_neg h2, hc]
          rw [heq]
          refine ⟨by simp [countTasks], by simp [countTasks]⟩
        | ok bb =>
          cases bb with
          | false =>
            have heq : run_webhooks_loop env doc method (v :: ws) ex =
                run_webhooks_loop env doc method ws ex := by
              simp only [run_webhooks_loop]
              rw [if_neg h1, if_neg h2, hc]
            rw [heq]
            exact ih ex
          | true =>
            have heq : run_webhooks_loop env doc method (v :: ws) ex =
                ⟨(run_webhooks_loop env doc method ws (exec_append ex doc.name v.name)).exec,
                  ⟨v.name, doc⟩ ::
                    (run_webhooks_loop env doc method ws (exec_append ex doc.name v.name)).tasks,
                  (run_webhooks_loop env doc method ws (exec_append ex doc.name v.name)).exn⟩ := by
              simp only [run_webhooks_loop]
              rw [if_neg h1, if_neg h2, hc]
            have htasks : (run_webhooks_loop env doc method (v :: ws) ex).tasks =
                (⟨v.name, doc⟩ : HookTask) ::
                  (run_webhooks_loop env doc method ws (exec_append ex doc.name v.name)).tasks := by
              rw [heq]
            have hexec : (run_webhooks_loop env doc method (v :: ws) ex).exec =
                (run_webhooks_loop env doc method ws (exec_append ex doc.name v.name)).exec := by
              rw [heq]
            have IH := ih (exec_append ex doc.name v.name)
            by_cases hA : v.name = w ∧ doc.name = n
            · obtain ⟨hvw, hdn⟩ := hA
              have hw_not : w ∉ exec_get ex n := by
                rw [← hvw, ← hdn]
                exact h2
              have hgrow : exec_get (exec_append ex doc.name v.name) n =
                  exec_get ex n ++ [v.name] := by
                rw [← hdn]
                exact exec_get_append_self ex doc.name v.name
              have hmem' : w ∈ exec_get (exec_append ex doc.name v.name) n := by
                rw [hgrow]
                exact List.mem_append_right _ (by rw [← hvw]; exact List.mem_singleton_self _)
              have hcount0 : countTasks w n
                  (run_webhooks_loop env doc method ws (exec_append ex doc.name v.name)).tasks
                    = 0 := by
                have hle := IH.1
                rw [if_pos hmem'] at hle
                omega
              constructor
              · rw [htasks, countTasks_cons, if_pos ⟨hvw, hdn⟩, hcount0, if_neg hw_not]
              · rw [htasks, hexec, countTasks_cons, if_pos ⟨hvw, hdn⟩, hcount0]
                constructor
                · intro _
                  exact Or.inr (by omega)
                · intro _
                  exact IH.2.mpr (Or.inl hmem')
            · have hiff : w ∈ exec_get (exec_append ex doc.name v.name) n ↔
                  w ∈ exec_get ex n := by
                by_cases hd : doc.name = n
                · have hvw : v.name ≠ w := fun hv => hA ⟨hv, hd⟩
                  have hgrow : exec_get (exec_append ex doc.name v.name) n =
                      exec_get ex n ++ [v.name] := by
                    rw [← hd]
                    exact exec_get_append_self ex doc.name v.name
                  rw [hgrow]
                  constructor
                  · intro hmem
                    rcases List.mem_append.mp hmem with h | h
                    · exact h
                    · exact absurd (List.mem_singleton.mp h) (fun he => hvw he.symm)
                  · exact fun hmem => List.mem_append_left _ hmem
                · rw [exec_get_append_other ex doc.name n v.name hd]
              constructor
              · rw [htasks, countTasks_cons, if_neg hA, Nat.zero_add]
                have hle := IH.1
                by_cases hm : w ∈ exec_get ex n
                · rw [if_pos hm]
                  rw [if_pos (hiff.mpr hm)] at hle
                  exact hle
                · rw [if_neg hm]
                  rw [if_neg (fun hh => hm (hiff.mp hh))] at hle
                  exact hle
              · rw [htasks, hexec, countTasks_cons, if_neg hA, Nat.zero_add]
                rw [IH.2, hiff]

/-- Per-call dedup step: one `run_webhooks` call produces at most one
task for a `(webhook name, document identity)` pair — none when it is
already in the executed-set — and it records the pair exactly when it was
recorded before or a task was produced now. -/
theorem run_webhooks_dedup_step (env : MatchEnv) (st : Flags) (doc : Doc) (method : String)
    (w n : String) :
    countTasks w n (run_webhooks env st doc method).tasks ≤
      (if execMem st n w then 0 else 1) ∧
    (execMem (run_webhooks env st doc method).flags n w ↔
      execMem st n w ∨ 1 ≤ countTasks w n (run_webhooks env st doc method).tasks) := by
  simp only [run_webhooks, execMem]
  by_cases hg : st.in_import ∨ st.in_patch ∨ st.in_install ∨ st.in_migrate
  · rw [if_pos hg]
    refine ⟨by simp [countTasks], by simp [countTasks]⟩
  · rw [if_neg hg]
    by_cases hm : method ∉ event_list doc
    · rw [if_pos hm]
      refine ⟨by simp [countTasks], by simp [countTasks]⟩
    · rw [if_neg hm]
      cases ha : alist_get (st.kafkahook.getD env.fetched) doc.doctype with
      | none =>
        simp only [ha]
        refine ⟨by simp [countTasks], by simp [countTasks]⟩
      | some ws =>
        simp only [ha]
        by_cases hws : ws = []
        · rw [if_pos hws]
          refine ⟨by simp [countTasks], by simp [countTasks]⟩
        · rw [if_neg hws]
          have L := run_webhooks_loop_dedup env doc method w n ws (st.kafkahook_executed.getD [])
          refine ⟨L.1, ?_⟩
          simpa using L.2

/-- Unit-of-work dedup: across a sequence of lifecycle events sharing the
ambient flags, the number of tasks for a fixed pair never exceeds one
once the pair is unrecorded at the start. -/
theorem run_events_dedup (env : MatchEnv) (w n : String) :
    ∀ (evs : List (Doc × String)) (st : Flags),
      countTasks w n (run_events env st evs).2 ≤ (if execMem st n w then 0 else 1) := by
  intro evs
  induction evs with
  | nil =>
    intro st
    simp [run_events, countTasks]
  | cons ev evs ih =>
    intro st
    obtain ⟨d, m⟩ := ev
    have hstep := run_webhooks_dedup_step env st d m w n
    have hrest := ih (run_webhooks env st d m).flags
    simp only [run_events]
    rw [countTasks_append]
    by_cases hmem : execMem st n w
    · rw [if_pos hmem]
      rw [if_pos hmem] at hstep
      have h1 : countTasks w n (run_webhooks env st d m).tasks = 0 := by omega
      have h2 : execMem (run_webhooks env st d m).flags n w := hstep.2.mpr (Or.inl hmem)
      rw [if_pos h2] at hrest
      omega
    · rw [if_neg hmem]
      rw [if_neg hmem] at hstep
      by_cases h1 : 1 ≤ countTasks w n (run_webhooks env st d m).tasks
      · have h2 : execMem (run_webhooks env st d m).flags n w := hstep.2.mpr (Or.inr h1)
        rw [if_pos h2] at hrest
        omega
      · have h2 : ¬ execMem (run_webhooks env st d m).flags n w := by
          intro hh
          rcases hstep.2.mp hh with hh1 | hh1
          · exact hmem hh1
          · exact h1 hh1
        rw [if_neg h2] at hrest
        omega

/-- C2: within one unit of work, a given webhook name produces at most
one enqueue call for a given document identity, no matter how many
applicable trigger events fire for that document in the unit: once the
name is recorded in the executed-set for the identity, every later
matching pass skips it. -/
theorem webhook_dedup (env : MatchEnv) (st : Flags) (evs : List (Doc × String)) (w n : String)
    (h : w ∉ exec_get (st.kafkahook_executed.getD []) n) :
    countTasks w n (run_events env st evs).2 ≤ 1 := by
  have hc := run_events_dedup env w n evs st
  have h2 : ¬ execMem st n w := h
  rwa [if_neg h2] at hc

/-- C2 witness: two firings of an applicable event for the same document
in one unit of work enqueue the webhook exactly once. -/
theorem webhook_dedup_witness :
    "KH-T" ∉ exec_get (st0.kafkahook_executed.getD []) "DOC-0001" ∧
    countTasks "KH-T" "DOC-0001"
      (run_events envMatch st0 [(docD1, "on_update"), (docD1, "on_update")]).2 = 1 ∧
    countTasks "KH-T" "DOC-0001"
      (run_events envMatch st0 [(docD1, "on_update"), (docD1, "on_update")]).2 ≤ 1 :=
  ⟨by decide, by decide,
    webhook_dedup envMatch st0 [(docD1, "on_update"), (docD1, "on_update")]
      "KH-T" "DOC-0001" (by decide)⟩

/-! ## Claim C9 (corrected) -/

/-- C9 counterexample: a definition whose trigger event is
`before_update_after_submit` — the string the runtime event set uses for
the update-after-submit trigger, and a member of the spec's trigger-event
enum — saved against a non-submittable doctype passes validation and is
persisted; `validate_docevent` only checks the distinct string
`on_update_after_submit`, so this submittable-only trigger is not
rejected, refuting the claim that all of on-submit/on-cancel/
before-update-after-submit are rejected at validation time. -/
theorem submittable_gating_counterexample :
    hookBUAS.webhook_docevent ∈ docevent_options ∧
    venv.is_submittable hookBUAS.webhook_doctype = false ∧
    KafkaHook.validate venv hookBUAS = Except.ok () ∧
    save_kafka_hook venv [] hookBUAS = Except.ok [hookBUAS] :=
  ⟨by decide, rfl, rfl, rfl⟩

/-- C9 amended: with a target doctype set and not submittable, a
definition whose trigger event is `on_submit`, `on_cancel` or
`on_update_after_submit` is rejected at validation time and blocked from
persistence; a definition with the runtime update-after-submit trigger
string `before_update_after_submit` passes the doc-event validation. -/
theorem submittable_gating (env : ValidateEnv) (h : KafkaHook) (store : HookStore)
    (hdt : h.webhook_doctype ≠ "")
    (hsub : env.is_submittable h.webhook_doctype = false) :
    (h.webhook_docevent ∈ ["on_submit", "on_cancel", "on_update_after_submit"] →
      KafkaHook.validate env h =
        Except.error "DocType must be Submittable for the selected Doc Event" ∧
      save_kafka_hook env store h =
        Except.error "DocType must be Submittable for the selected Doc Event") ∧
    (h.webhook_docevent = "before_update_after_submit" →
      validate_docevent env h = Except.ok ()) := by
  constructor
  · intro hev
    have hval : validate_docevent env h =
        Except.error "DocType must be Submittable for the selected Doc Event" := by
      unfold validate_docevent
      rw [if_pos hdt, if_pos ⟨by simp [hsub], hev⟩]
    have hv2 : KafkaHook.validate env h =
        Except.error "DocType must be Submittable for the selected Doc Event" := by
      unfold KafkaHook.validate
      rw [hval]
    refine ⟨hv2, ?_⟩
    unfold save_kafka_hook
    rw [hv2]
  · intro hev
    unfold validate_docevent
    rw [if_pos hdt, if_neg]
    intro hc
    rw [hev] at hc
    exact absurd hc.2 (by decide)

/-- C9 witness: the `on_submit` definition against the non-submittable
doctype is rejected and not persisted; the `before_update_after_submit`
definition passes the doc-event check. -/
theorem submittable_gating_witness :
    KafkaHook.validate venv hookSub =
      Except.error "DocType must be Submittable for the selected Doc Event" ∧
    save_kafka_hook venv [] hookSub =
      Except.error "DocType must be Submittable for the selected Doc Event" ∧
    validate_docevent venv hookBUAS = Except.ok () :=
  ⟨((submittable_gating venv hookSub [] (by decide) rfl).1 (by decide)).1,
   ((submittable_gating venv hookSub [] (by decide) rfl).1 (by decide)).2,
   (submittable_gating venv hookBUAS [] (by decide) rfl).2 rfl⟩

end BulkWebhook
